import Mathlib

/-!
# Verification of the `my-cli` repository

Shallow embedding of the two programs the claims concern:

* `gltf-viewer/src/lib.rs` — a WebGL glTF viewer (`GltfViewer`): asset
  loading (`load_gltf`), primitive flattening (`process_primitive`),
  accumulation with index rebasing, placeholder box fallback
  (`create_test_box`), rendering (`render`), and camera orbit
  (`rotate_camera`).
* `step2-calculator/src/main.rs` — an arithmetic CLI; the claim concerns
  `evaluate_expression`.

Modelling conventions:

* `f32` position components are modelled as exact rationals (`ℚ`): every
  finite `f32` value is a dyadic rational, and the viewer only moves
  position values verbatim (it never computes with them), so the embedding
  is exact for everything the claims measure.
* Machine integers are `Nat` with explicit `% 2^w` at each point where the
  Rust code narrows (`as u16`, `as i32`) or where `u16` addition can wrap
  (release-mode wrapping semantics of `+`).
* The external `gltf::import_slice` parser is an opaque collaborator: it is
  a parameter `parse : List Nat → Except String Asset` of `load_gltf`. The
  Rust code calls `gltf::import_slice(gltf_data)` in all three of its
  container-detection branches (the branches only log), so a single
  application of `parse` is faithful.
* GPU calls are modelled by their observable effect on the viewer's buffer
  state and, for `render`, by the list of element counts of the draw calls
  issued.
* Camera math (`rotate_camera`) uses exact real arithmetic (`ℝ`) in place
  of `f32`.
-/

namespace GltfViewer

/-- An explicit index stream of a glTF primitive, as exposed by
`gltf::mesh::util::ReadIndices`: element width 8, 16 or 32 bits. The
payload lists hold the numeric values; well-formedness (each value fits its
width) is the predicate `IndexStream.WF`. -/
inductive IndexStream : Type where
  | u8 : List Nat → IndexStream
  | u16 : List Nat → IndexStream
  | u32 : List Nat → IndexStream
deriving DecidableEq, Repr

/-- Values of an index stream fit the stream's declared width. -/
def IndexStream.WF : IndexStream → Prop
  | .u8 l => ∀ x ∈ l, x < 2 ^ 8
  | .u16 l => ∀ x ∈ l, x < 2 ^ 16
  | .u32 l => ∀ x ∈ l, x < 2 ^ 32

/-- One glTF primitive as `process_primitive` sees it through the reader:
a topology `mode` (`4` is `Triangles` in glTF), an optional position
stream (`reader.read_positions()` returning `None` is `positions = none`),
and an optional explicit index stream (`reader.read_indices()`). -/
structure Primitive : Type where
  mode : Nat
  positions : Option (List (ℚ × ℚ × ℚ))
  indices : Option IndexStream
deriving DecidableEq, Repr

/-- A glTF mesh: optional name and its primitives, in file order. -/
structure Mesh : Type where
  name : Option String
  primitives : List Primitive
deriving DecidableEq, Repr

/-- The decoded asset as `load_gltf` consumes it: the meshes in file
order. (Buffers are already resolved into the primitives' streams, which
is what `primitive.reader(|buffer| ...)` does in the source.) -/
structure Asset : Type where
  meshes : List Mesh
deriving DecidableEq, Repr

/-- The geometry-relevant state of a `GltfViewer`: the contents of the GPU
vertex buffer (flat `f32` sequence), of the GPU index buffer (`u16`
values), and the `index_count: i32` field. -/
structure ViewerState : Type where
  vertexBuffer : List ℚ
  indexBuffer : List Nat
  index_count : Int
deriving DecidableEq, Repr

/-- State of a freshly constructed viewer: `new` sets `index_count: 0` and
the two buffers are created empty. -/
def initState : ViewerState := { vertexBuffer := [], indexBuffer := [], index_count := 0 }

/-- `usize as i32` (the cast in `self.index_count = indices.len() as i32`):
truncate to 32 bits, then reinterpret as two's-complement signed. -/
def toI32 (n : Nat) : Int :=
  if n % 2 ^ 32 < 2 ^ 31 then (n % 2 ^ 32 : Int) else (n % 2 ^ 32 : Int) - 2 ^ 32

/-- Narrowing of one explicit 32-bit index value to 16 bits
(`process_primitive`, `ReadIndices::U32` arm): values above `u16::MAX`
are clamped to `u16::MAX`, others pass through. -/
def narrowU32 (i : Nat) : Nat :=
  if i > 65535 then 65535 else i

/-- The `read_indices()` match of `process_primitive`: `U8` values are
widened (`i as u16`, value unchanged), `U16` values collected as-is, `U32`
values narrowed with the clamp policy. -/
def readIndicesToU16 : IndexStream → List Nat
  | .u8 l => l
  | .u16 l => l
  | .u32 l => l.map narrowU32

/-- Flattening of the position triples into the flat `f32` vertex vector
(`positions.iter().flat_map(|pos| pos.iter().cloned())`). -/
def flattenPositions (ps : List (ℚ × ℚ × ℚ)) : List ℚ :=
  ps.flatMap fun p => [p.1, p.2.1, p.2.2]

/-- Sequential index synthesis when a primitive has no index stream:
`(0..positions.len() as u16).collect()`. The `as u16` cast truncates the
position count modulo `2^16` before the range is built. -/
def synthIndices (n : Nat) : List Nat :=
  List.range (n % 2 ^ 16)

/-- The index list `process_primitive` computes for a primitive with
position list `positions`: narrowed explicit indices when a stream
exists, synthesized sequential indices otherwise. -/
def effectiveIndices (p : Primitive) (positions : List (ℚ × ℚ × ℚ)) : List Nat :=
  match p.indices with
  | some s => readIndicesToU16 s
  | none => synthIndices positions.length

/-- `process_primitive`: extract positions (absent stream ⇒ `None`,
primitive skipped), flatten them, resolve indices, and skip the primitive
(`Ok(None)`) when either resulting sequence is empty. The Rust function's
`Result` never carries an `Err` (every return is `Ok`), so the model
returns `Option` directly. The non-triangle `mode` check only logs. -/
def process_primitive (p : Primitive) : Option (List ℚ × List Nat) :=
  match p.positions with
  | none => none
  | some positions =>
    let vertices := flattenPositions positions
    let indices := effectiveIndices p positions
    if vertices = [] then none
    else if indices = [] then none
    else some (vertices, indices)

/-- Vertex data of the fallback box of `create_test_box`: 8 corner
vertices, 24 floats. -/
def boxVertices : List ℚ :=
  [-1, -1, 1, 1, -1, 1, 1, 1, 1, -1, 1, 1,
   -1, -1, -1, -1, 1, -1, 1, 1, -1, 1, -1, -1]

/-- Index data of the fallback box of `create_test_box`: 36 indices, 12
triangles. -/
def boxIndices : List Nat :=
  [0, 1, 2, 0, 2, 3,
   4, 5, 6, 4, 6, 7,
   4, 0, 3, 4, 3, 5,
   1, 7, 6, 1, 6, 2,
   3, 2, 6, 3, 6, 5,
   4, 7, 1, 4, 1, 0]

/-- `create_test_box`: upload the fallback box into both buffers and set
`index_count = 36`. -/
def create_test_box (st : ViewerState) : ViewerState :=
  { st with vertexBuffer := boxVertices, indexBuffer := boxIndices, index_count := 36 }

/-- `clear_geometry`: both GPU buffers are rewritten with zero-length
data; `index_count` is not touched. -/
def clear_geometry (st : ViewerState) : ViewerState :=
  { st with vertexBuffer := [], indexBuffer := [] }

/-- `upload_geometry`: rewrite both buffers with the accumulated data and
store `indices.len() as i32` in `index_count`. -/
def upload_geometry (st : ViewerState) (vertices : List ℚ) (indices : List Nat) : ViewerState :=
  { st with vertexBuffer := vertices, indexBuffer := indices, index_count := toI32 indices.length }

/-- Rebasing of a flattened primitive's indices by the running offset:
`indices.iter().map(|&i| i + index_offset)` where both operands are `u16`
(release-mode wrapping addition, hence the `% 2^16`). -/
def rebase (off : Nat) (l : List Nat) : List Nat :=
  l.map fun i => (i + off) % 2 ^ 16

/-- One step of the accumulation loop of `load_gltf` for a single
primitive: on `Some((vertices, indices))` append the vertices, append the
rebased indices, and advance the running `index_offset: u16` by
`(vertices.len() / 3) as u16` (wrapping `u16` addition); on `None` (skip)
or `Err` (logged and absorbed) leave the accumulator unchanged. -/
def accumStep (acc : List ℚ × List Nat × Nat) (p : Primitive) : List ℚ × List Nat × Nat :=
  match process_primitive p with
  | some (vertices, indices) =>
    (acc.1 ++ vertices, acc.2.1 ++ rebase acc.2.2 indices,
      (acc.2.2 + vertices.length / 3) % 2 ^ 16)
  | none => acc

/-- The mesh/primitive accumulation loop of `load_gltf`: walk all meshes,
then their primitives, in order, starting from empty buffers and
`index_offset = 0`. Returns `(all_vertices, all_indices, index_offset)`. -/
def accumulate (asset : Asset) : List ℚ × List Nat × Nat :=
  asset.meshes.foldl (fun acc mesh => mesh.primitives.foldl accumStep acc) ([], [], 0)

/-- `load_gltf`, with the external `gltf::import_slice` supplied as
`parse`. Mirrors the source: reject inputs shorter than 4 bytes; parse
(all three container-detection branches call the same parser, so one
`parse` application is faithful); propagate a parse failure as an error
with the `"Failed to import GLTF file: "` message; fall back to
`create_test_box` when the asset has zero meshes; otherwise clear the
geometry, accumulate all primitives, fall back to `create_test_box` when
nothing was extracted, and upload the accumulated geometry. -/
def load_gltf (parse : List Nat → Except String Asset) (st : ViewerState)
    (bytes : List Nat) : Except String ViewerState :=
  if bytes.length < 4 then .error "GLTF file too small"
  else
    match parse bytes with
    | .error e => .error ("Failed to import GLTF file: " ++ e)
    | .ok asset =>
      if asset.meshes.length = 0 then .ok (create_test_box st)
      else
        let st1 := clear_geometry st
        let r := accumulate asset
        if r.1 = [] then .ok (create_test_box st1)
        else .ok (upload_geometry st1 r.1 r.2.1)

/-- `render`, modelled by its observable outcome: the returned `Result`
(always `Ok` — the body issues only infallible GL calls) and the list of
element counts of the draw calls issued. With `index_count == 0` it
returns immediately without drawing; otherwise it issues exactly one
`draw_elements` call with `count = index_count`. -/
def render (st : ViewerState) : Except String Unit × List Int :=
  if st.index_count = 0 then (.ok (), [])
  else (.ok (), [st.index_count])

/-- Camera state touched by `rotate_camera`: `camera_position` and
`camera_target` (3-vectors). The view matrix is recomputed from them by
look-at and carries no further state of its own. `f32` arithmetic is
modelled by exact real arithmetic. -/
structure CameraState : Type where
  camera_position : ℝ × ℝ × ℝ
  camera_target : ℝ × ℝ × ℝ

/-- Componentwise vector subtraction. -/
noncomputable def vsub (a b : ℝ × ℝ × ℝ) : ℝ × ℝ × ℝ :=
  (a.1 - b.1, a.2.1 - b.2.1, a.2.2 - b.2.2)

/-- Euclidean length (`glm::length`). -/
noncomputable def vlen (v : ℝ × ℝ × ℝ) : ℝ :=
  Real.sqrt (v.1 ^ 2 + v.2.1 ^ 2 + v.2.2 ^ 2)

/-- `y.atan2(x)`: the angle of the point `(x, y)`, modelled by the
complex argument. Only its type matters for the distance/target
invariants. -/
noncomputable def atan2 (y x : ℝ) : ℝ :=
  Complex.arg ⟨x, y⟩

/-- The clamped polar angle computed by `rotate_camera`:
`(to_target.y / distance).acos() + delta_y * 0.01`, then
`.max(0.1).min(PI - 0.1)`. -/
noncomputable def rotatedTheta (st : CameraState) (delta_y : ℝ) : ℝ :=
  let to_target := vsub st.camera_position st.camera_target
  let distance := vlen to_target
  min (max (Real.arccos (to_target.2.1 / distance) + delta_y * 0.01) 0.1) (Real.pi - 0.1)

/-- `rotate_camera`: convert the position relative to the target into
spherical coordinates, advance `phi` by `delta_x * 0.01` and `theta` by
`delta_y * 0.01` (clamping `theta`), and reconstruct the cartesian
position at the same `distance` around the unchanged target. -/
noncomputable def rotate_camera (st : CameraState) (delta_x delta_y : ℝ) : CameraState :=
  let to_target := vsub st.camera_position st.camera_target
  let distance := vlen to_target
  let phi := atan2 to_target.2.2 to_target.1 + delta_x * 0.01
  let theta := rotatedTheta st delta_y
  { camera_position :=
      (st.camera_target.1 + distance * Real.sin theta * Real.cos phi,
       st.camera_target.2.1 + distance * Real.cos theta,
       st.camera_target.2.2 + distance * Real.sin theta * Real.sin phi),
    camera_target := st.camera_target }

end GltfViewer

namespace Calc

/-- The error cases of `CalcError` reachable from `evaluate_expression`:
`DivisionByZero` and `InvalidExpression` (carrying the offending input).
The `f64` overflow checks of `add`/`subtract`/`multiply`/`divide` never
fire in the exact-rational model, and `ParseError`/`UnknownOperation` are
not produced by expression evaluation. -/
inductive CalcError : Type where
  | divisionByZero : CalcError
  | invalidExpression : List Char → CalcError
deriving DecidableEq, Repr

/-- `add`: in exact rational arithmetic the `is_infinite`/`is_nan`
overflow check never fires, so the sum is returned. -/
def addC (a b : ℚ) : Except CalcError ℚ := .ok (a + b)

/-- `subtract` (exact model, overflow check never fires). -/
def subC (a b : ℚ) : Except CalcError ℚ := .ok (a - b)

/-- `multiply` (exact model, overflow check never fires). -/
def mulC (a b : ℚ) : Except CalcError ℚ := .ok (a * b)

/-- `divide`: fails with `DivisionByZero` when the divisor is zero. -/
def divC (a b : ℚ) : Except CalcError ℚ :=
  if b = 0 then .error .divisionByZero else .ok (a / b)

/-- `expr.replace(" ", "")`: remove every space character (U+0020).
Strings are modelled as character lists; the operators the evaluator
splits on are ASCII, so byte positions and character positions delimit
the same substrings. -/
def stripSpaces (l : List Char) : List Char :=
  l.filter fun c => c != ' '

/-- `str::rfind(char)`: index of the last occurrence of `c` in `l`. -/
def rfind (l : List Char) (c : Char) : Option Nat :=
  match l.reverse.findIdx? (fun x => x = c) with
  | none => none
  | some i => some (l.length - 1 - i)

/-- Value of a digit string, most significant first. -/
def digitsToNat (l : List Char) : Nat :=
  l.foldl (fun n c => 10 * n + (c.toNat - 48)) 0

/-- `expr.parse::<f64>()`, idealised: decimal literals (`digits` or
`digits.digits`) are parsed exactly into rationals; anything else is a
parse failure. (The full `f64` grammar also admits forms such as
exponents, which the model rejects; no claim depends on the literal
grammar.) -/
def parseNumber (l : List Char) : Option ℚ :=
  let intPart := l.takeWhile Char.isDigit
  let rest := l.dropWhile Char.isDigit
  if intPart = [] then none
  else
    match rest with
    | [] => some (digitsToNat intPart : ℚ)
    | '.' :: frac =>
      if frac ≠ [] ∧ frac.all Char.isDigit then
        some ((digitsToNat intPart : ℚ) + (digitsToNat frac : ℚ) / 10 ^ frac.length)
      else none
    | _ => none

/-- Stripping spaces never lengthens a string (termination measure bound
for `evalExpr`). -/
theorem stripSpaces_length_le (l : List Char) : (stripSpaces l).length ≤ l.length :=
  List.length_filter_le _ _

/-- A position returned by `rfind` is a valid index. -/
theorem rfind_lt (l : List Char) (c : Char) (p : Nat) (h : rfind l c = some p) :
    p < l.length := by
  unfold rfind at h
  cases hf : l.reverse.findIdx? (fun x => x = c) with
  | none => rw [hf] at h; cases h
  | some i =>
    rw [hf] at h
    injection h with h
    cases l with
    | nil => simp [List.findIdx?] at hf
    | cons a t => subst h; simp only [List.length_cons]; omega

/-- `take`-slices of the stripped expression shrink the termination
measure of `evalExpr`. -/
theorem strip_take_lt (e : List Char) (pos : Nat) (hp : pos < e.length) :
    (stripSpaces (e.take pos)).length < e.length := by
  have h1 := stripSpaces_length_le (e.take pos)
  have h2 : (e.take pos).length = min pos e.length := List.length_take _ _
  omega

/-- `drop`-slices of the stripped expression shrink the termination
measure of `evalExpr`. -/
theorem strip_drop_lt (e : List Char) (k : Nat) (hk : 0 < k) (he : 0 < e.length) :
    (stripSpaces (e.drop k)).length < e.length := by
  have h1 := stripSpaces_length_le (e.drop k)
  have h2 : (e.drop k).length = e.length - k := List.length_drop _ _
  omega

/-- `evaluate_expression`: strip all spaces, then split at the last `+`,
else the last `-` (a `-` at position 0 negates the rest), else the last
`*`, else the last `/`, recursing on both slices; a string with no
operator is parsed as a numeric literal, failing with
`InvalidExpression` otherwise. Errors propagate exactly as the `?`
operator does in the source. -/
def evalExpr (s : List Char) : Except CalcError ℚ :=
  match _h1 : rfind (stripSpaces s) '+' with
  | some pos =>
    match evalExpr ((stripSpaces s).take pos) with
    | .error e => .error e
    | .ok left =>
      match evalExpr ((stripSpaces s).drop (pos + 1)) with
      | .error e => .error e
      | .ok right => addC left right
  | none =>
    match _h2 : rfind (stripSpaces s) '-' with
    | some pos =>
      if pos = 0 then
        match evalExpr ((stripSpaces s).drop 1) with
        | .error e => .error e
        | .ok n => .ok (-n)
      else
        match evalExpr ((stripSpaces s).take pos) with
        | .error e => .error e
        | .ok left =>
          match evalExpr ((stripSpaces s).drop (pos + 1)) with
          | .error e => .error e
          | .ok right => subC left right
    | none =>
      match _h3 : rfind (stripSpaces s) '*' with
      | some pos =>
        match evalExpr ((stripSpaces s).take pos) with
        | .error e => .error e
        | .ok left =>
          match evalExpr ((stripSpaces s).drop (pos + 1)) with
          | .error e => .error e
          | .ok right => mulC left right
      | none =>
        match _h4 : rfind (stripSpaces s) '/' with
        | some pos =>
          match evalExpr ((stripSpaces s).take pos) with
          | .error e => .error e
          | .ok left =>
            match evalExpr ((stripSpaces s).drop (pos + 1)) with
            | .error e => .error e
            | .ok right => divC left right
        | none =>
          match parseNumber (stripSpaces s) with
          | some v => .ok v
          | none => .error (.invalidExpression (stripSpaces s))
termination_by (stripSpaces s).length
decreasing_by
  all_goals
    first
      | exact strip_take_lt _ _ (rfind_lt _ _ _ (by assumption))
      | exact strip_drop_lt _ _ (by omega)
          (Nat.lt_of_le_of_lt (Nat.zero_le _) (rfind_lt _ _ _ (by assumption)))

/-- `stripSpaces` is idempotent: the evaluator's own slicing produces
already-stripped strings. -/
theorem stripSpaces_idem (l : List Char) : stripSpaces (stripSpaces l) = stripSpaces l := by
  simp [stripSpaces, List.filter_filter]

end Calc

namespace GltfViewer

/-- A primitive of a valid triangle asset: triangle topology (glTF mode
`4`) and, whenever `process_primitive` extracts geometry from it, the
extracted index count is a multiple of 3 (a triangle list). -/
def validTriPrimitive (p : Primitive) : Prop :=
  p.mode = 4 ∧
    match process_primitive p with
    | some (_, indices) => indices.length % 3 = 0
    | none => True

/-- Flattening triples yields three floats per position. -/
theorem flattenPositions_length (ps : List (ℚ × ℚ × ℚ)) :
    (flattenPositions ps).length = 3 * ps.length := by
  induction ps with
  | nil => rfl
  | cons a t ih => simp [flattenPositions] at ih ⊢; omega

/-- Inversion of `process_primitive` on success: the vertex list is the
flattened position stream, the index list is the effective index list,
and both are non-empty. -/
theorem process_primitive_some (p : Primitive) (v : List ℚ) (i : List Nat)
    (h : process_primitive p = some (v, i)) :
    ∃ ps, p.positions = some ps ∧ v = flattenPositions ps ∧
      i = effectiveIndices p ps ∧ v ≠ [] ∧ i ≠ [] := by
  unfold process_primitive at h
  cases hps : p.positions with
  | none => rw [hps] at h; cases h
  | some ps =>
    rw [hps] at h
    simp only at h
    by_cases hv : flattenPositions ps = [] <;> simp [hv] at h
    by_cases hi : effectiveIndices p ps = [] <;> simp [hi] at h
    exact ⟨ps, rfl, h.1.symm, h.2.symm, by rw [h.1] at hv; exact hv,
      by rw [h.2] at hi; exact hi⟩

/-- A property preserved by every step of a left fold holds of the
result. -/
theorem foldl_preserves {α β : Type _} (P : β → Prop) (f : β → α → β) :
    ∀ (l : List α) (b : β), P b → (∀ b a, a ∈ l → P b → P (f b a)) → P (l.foldl f b) := by
  intro l
  induction l with
  | nil => intro b hb _; exact hb
  | cons a t ih =>
    intro b hb hf
    exact ih (f b a) (hf b a (by simp) hb) fun b' a' ha' => hf b' a' (by simp [ha'])

/-- Invariant of the accumulation loop: when every primitive of the asset
is a valid triangle primitive, the accumulated index count is a multiple
of 3, and the accumulated vertex and index buffers are empty together. -/
theorem accumulate_invariant (asset : Asset)
    (hvalid : ∀ m ∈ asset.meshes, ∀ p ∈ m.primitives, validTriPrimitive p) :
    (accumulate asset).2.1.length % 3 = 0 ∧
      ((accumulate asset).1 = [] ↔ (accumulate asset).2.1 = []) := by
  unfold accumulate
  refine foldl_preserves
    (fun (acc : List ℚ × List Nat × Nat) =>
      acc.2.1.length % 3 = 0 ∧ (acc.1 = [] ↔ acc.2.1 = [])) _ _ _
    (by simp) ?_
  intro acc mesh hmesh hacc
  refine foldl_preserves
    (fun (acc : List ℚ × List Nat × Nat) =>
      acc.2.1.length % 3 = 0 ∧ (acc.1 = [] ↔ acc.2.1 = [])) _ _ _ hacc ?_
  intro acc' p hp hacc'
  unfold accumStep
  cases hproc : process_primitive p with
  | none => exact hacc'
  | some vi =>
    obtain ⟨v, i, hv, hi, hne_v, hne_i⟩ :
        ∃ ps, p.positions = some ps ∧ vi.1 = flattenPositions ps ∧
          vi.2 = effectiveIndices p ps ∧ vi.1 ≠ [] ∧ vi.2 ≠ [] := by
      obtain ⟨ps, h1, h2, h3, h4, h5⟩ := process_primitive_some p vi.1 vi.2 (by rw [hproc])
      exact ⟨ps, h1, h2, h3, h4, h5⟩
    have hdiv : vi.2.length % 3 = 0 := by
      have h2 := (hvalid mesh hmesh p hp).2
      rw [hproc] at h2
      exact h2
    constructor
    · simp only [List.length_append, rebase, List.length_map]
      omega
    · constructor
      · intro h
        exact absurd (List.append_eq_nil.mp h).2 hne_v
      · intro h
        have := (List.append_eq_nil.mp h).2
        simp only [rebase, List.map_eq_nil_iff] at this
        exact absurd this hne_i

/-- For counts below `2^31`, the `usize as i32` cast is the identity. -/
theorem toI32_of_lt (n : Nat) (h : n < 2 ^ 31) : toI32 n = (n : Int) := by
  unfold toI32
  split <;> omega

end GltfViewer

namespace GltfViewer

/-- C1: the claim says a whole-asset decode failure still yields `Ok`
with placeholder geometry. It does not: `load_gltf` maps the
`gltf::import_slice` error into a message and propagates it with `?`.
Concretely, with a parser that rejects the 4-byte input `[0,0,0,0]`, the
load returns that error, not `Ok`. -/
theorem C1_counterexample :
    load_gltf (fun _ => Except.error "invalid asset") initState [0, 0, 0, 0]
      = Except.error "Failed to import GLTF file: invalid asset" := by
  rfl

/-- C1 (amended): on a whole-asset decode failure (input at least 4 bytes
long, parser fails), `load_gltf` surfaces the failure to the caller as an
error carrying the `"Failed to import GLTF file: "` message; the
placeholder fallback is reserved for assets that decode successfully but
contain no meshes or no extractable geometry. -/
theorem C1_decode_failure_is_error (parse : List Nat → Except String Asset)
    (st : ViewerState) (bytes : List Nat) (e : String)
    (h4 : ¬ bytes.length < 4) (hp : parse bytes = .error e) :
    load_gltf parse st bytes = .error ("Failed to import GLTF file: " ++ e) := by
  simp [load_gltf, h4, hp]

/-- Witness for C1 (amended) at a concrete failing parse. -/
theorem C1_decode_failure_is_error_witness :
    ¬ ([1, 2, 3, 4] : List Nat).length < 4 ∧
      load_gltf (fun _ => Except.error "bad magic") initState [1, 2, 3, 4]
        = Except.error ("Failed to import GLTF file: " ++ "bad magic") :=
  ⟨by decide, C1_decode_failure_is_error _ _ _ _ (by decide) rfl⟩

/-- C2: a 32-bit index value narrows to `min v 65535` (clamped, never
wrapped or rejected), while 8-bit and 16-bit index values pass through
the narrowing step unchanged. -/
theorem C2_index_narrowing (v : Nat) (l8 l16 l32 : List Nat) :
    narrowU32 v = min v 65535 ∧
      readIndicesToU16 (.u8 l8) = l8 ∧
      readIndicesToU16 (.u16 l16) = l16 ∧
      readIndicesToU16 (.u32 l32) = l32.map fun x => min x 65535 := by
  have hmin : ∀ x : Nat, narrowU32 x = min x 65535 := by
    intro x
    unfold narrowU32
    split <;> omega
  have h32 : readIndicesToU16 (.u32 l32) = l32.map fun x => min x 65535 := by
    show l32.map narrowU32 = _
    exact List.map_congr_left fun x _ => hmin x
  exact ⟨hmin v, rfl, rfl, h32⟩

/-- C4: the claim fails at a primitive with `2^16` positions and no index
stream: `positions.len() as u16` truncates to `0`, so the synthesized
sequence is empty instead of `0..65535`. -/
theorem C4_counterexample :
    effectiveIndices
        ⟨4, some (List.replicate (2 ^ 16) ((0 : ℚ), (0 : ℚ), (0 : ℚ))), none⟩
        (List.replicate (2 ^ 16) ((0 : ℚ), (0 : ℚ), (0 : ℚ))) = [] ∧
      List.range (List.replicate (2 ^ 16) ((0 : ℚ), (0 : ℚ), (0 : ℚ))).length ≠ [] := by
  constructor
  · show synthIndices (List.replicate (2 ^ 16) ((0 : ℚ), (0 : ℚ), (0 : ℚ))).length = []
    rw [List.length_replicate]
    unfold synthIndices
    rw [Nat.mod_self]
    exact List.range_zero
  · rw [List.length_replicate]
    intro h
    have := congrArg List.length h
    rw [List.length_range] at this
    simp at this

/-- C4 (amended): for a primitive with a position stream of `n < 2^16`
positions and no explicit index stream, the synthesized index sequence is
exactly `0..n-1` in order, and (when the stream is non-empty) that is
what `process_primitive` emits together with the flattened positions. -/
theorem C4_synthesized_indices (p : Primitive) (ps : List (ℚ × ℚ × ℚ))
    (hpos : p.positions = some ps) (hni : p.indices = none)
    (hn : ps.length < 2 ^ 16) :
    effectiveIndices p ps = List.range ps.length ∧
      (ps ≠ [] → process_primitive p = some (flattenPositions ps, List.range ps.length)) := by
  have heff : effectiveIndices p ps = List.range ps.length := by
    have h1 : effectiveIndices p ps = synthIndices ps.length := by
      unfold effectiveIndices
      rw [hni]
    rw [h1]
    unfold synthIndices
    rw [Nat.mod_eq_of_lt hn]
  refine ⟨heff, fun hne => ?_⟩
  have hvne : flattenPositions ps ≠ [] := by
    intro h
    have := congrArg List.length h
    rw [flattenPositions_length] at this
    simp at this
    exact hne this
  have hine : List.range ps.length ≠ [] := by
    intro h
    have := congrArg List.length h
    simp [List.length_range] at this
    exact hne this
  simp [process_primitive, hpos, heff, hvne, hine]

/-- Witness for C4 (amended): one position, no index stream ⇒ indices
`[0]`. -/
theorem C4_synthesized_indices_witness :
    effectiveIndices ⟨4, some [((0 : ℚ), (0 : ℚ), (0 : ℚ))], none⟩
        [((0 : ℚ), (0 : ℚ), (0 : ℚ))] = List.range 1 ∧
      process_primitive ⟨4, some [((0 : ℚ), (0 : ℚ), (0 : ℚ))], none⟩
        = some (flattenPositions [((0 : ℚ), (0 : ℚ), (0 : ℚ))], List.range 1) := by
  have h := C4_synthesized_indices ⟨4, some [((0 : ℚ), (0 : ℚ), (0 : ℚ))], none⟩
    [((0 : ℚ), (0 : ℚ), (0 : ℚ))] rfl rfl (by decide)
  exact ⟨h.1, h.2 (by decide)⟩

/-- C7: any input shorter than 4 bytes is rejected with the
`"GLTF file too small"` error (returned, not a panic: the model is a
total function). -/
theorem C7_too_small (parse : List Nat → Except String Asset) (st : ViewerState)
    (bytes : List Nat) (h : bytes.length < 4) :
    load_gltf parse st bytes = .error "GLTF file too small" := by
  simp [load_gltf, h]

/-- C6: loading a well-formed asset with zero meshes, or one from which
no geometry could be extracted (every primitive skipped), succeeds and
substitutes the deterministic placeholder box — 8 vertices (24 floats),
36 indices — leaving `index_count == 36`. -/
theorem C6_zero_meshes_placeholder (parse : List Nat → Except String Asset)
    (st : ViewerState) (bytes : List Nat) (asset : Asset)
    (h4 : ¬ bytes.length < 4) (hp : parse bytes = .ok asset)
    (hempty : asset.meshes = [] ∨ (accumulate asset).1 = []) :
    ∃ st', load_gltf parse st bytes = .ok st' ∧
      st'.vertexBuffer = boxVertices ∧ st'.indexBuffer = boxIndices ∧
      st'.index_count = 36 ∧ boxVertices.length = 24 ∧ boxIndices.length = 36 := by
  by_cases hm : asset.meshes.length = 0
  · refine ⟨create_test_box st, ?_, rfl, rfl, rfl, rfl, rfl⟩
    simp [load_gltf, h4, hp, hm]
  · rcases hempty with he | he
    · exact absurd (by rw [he]; rfl) hm
    · refine ⟨create_test_box (clear_geometry st), ?_, rfl, rfl, rfl, rfl, rfl⟩
      simp [load_gltf, h4, hp, hm, he]

/-- Witness for C6 at a parser producing the empty asset for the 4-byte
`glTF` magic. -/
theorem C6_zero_meshes_placeholder_witness :
    ∃ st', load_gltf (fun _ => Except.ok ⟨[]⟩) initState [103, 108, 84, 70] = .ok st' ∧
      st'.vertexBuffer = boxVertices ∧ st'.indexBuffer = boxIndices ∧
      st'.index_count = 36 ∧ boxVertices.length = 24 ∧ boxIndices.length = 36 :=
  C6_zero_meshes_placeholder _ initState [103, 108, 84, 70] ⟨[]⟩ (by decide) rfl (Or.inl rfl)

/-- C3: the claim fails because the running offset and the rebased
indices are 16-bit: with a first primitive of vertex count `m = 1` and a
second primitive whose explicit index is `65535`, the rebased second
index wraps to `(65535 + 1) % 2^16 = 0` instead of being offset by
exactly `m` to `65536`. -/
theorem C3_counterexample :
    (accumulate ⟨[⟨none,
        [⟨4, some [((0 : ℚ), (0 : ℚ), (0 : ℚ))], some (.u16 [0])⟩,
         ⟨4, some [((0 : ℚ), (0 : ℚ), (0 : ℚ))], some (.u16 [65535])⟩]⟩]⟩).2.1
      = [0, 0] ∧ ([0, 0] : List Nat) ≠ [0, 65535 + 1] := by
  exact ⟨rfl, by decide⟩

/-- C3 (amended): for a scene of two flattened primitives with vertex
counts `m` and `n`, provided the counts and the rebased index values stay
within the 16-bit range (`m < 2^16` and `x + m < 2^16` for each second
index `x`), the combined index buffer is the first primitive's indices
followed by the second's offset by exactly `m`, and the combined vertex
buffer holds exactly `3*(m+n)` floats. -/
theorem C3_rebase_offset (p1 p2 : Primitive) (v1 v2 : List ℚ) (i1 i2 : List Nat)
    (m n : Nat)
    (hp1 : process_primitive p1 = some (v1, i1))
    (hp2 : process_primitive p2 = some (v2, i2))
    (hm : v1.length = 3 * m) (hn : v2.length = 3 * n)
    (hb1 : ∀ x ∈ i1, x < 2 ^ 16) (hmlt : m < 2 ^ 16)
    (hb2 : ∀ x ∈ i2, x + m < 2 ^ 16) :
    (accumulate ⟨[⟨none, [p1, p2]⟩]⟩).1.length = 3 * (m + n) ∧
      (accumulate ⟨[⟨none, [p1, p2]⟩]⟩).2.1 = i1 ++ i2.map fun i => i + m := by
  have hacc : accumulate ⟨[⟨none, [p1, p2]⟩]⟩
      = accumStep (accumStep ([], [], 0) p1) p2 := rfl
  have hoff : (0 + v1.length / 3) % 2 ^ 16 = m := by
    rw [hm, Nat.zero_add, Nat.mul_div_cancel_left _ (by omega)]
    exact Nat.mod_eq_of_lt hmlt
  have hr1 : rebase 0 i1 = i1 := by
    unfold rebase
    rw [List.map_congr_left (g := id) fun x hx => by
      simp only [Nat.add_zero, id]
      exact Nat.mod_eq_of_lt (hb1 x hx)]
    exact List.map_id i1
  have hr2 : rebase m i2 = i2.map fun i => i + m := by
    unfold rebase
    exact List.map_congr_left fun x hx => Nat.mod_eq_of_lt (hb2 x hx)
  rw [hacc]
  unfold accumStep
  rw [hp1]
  simp only
  rw [hp2]
  simp only [List.nil_append]
  rw [hoff, hr1, hr2]
  constructor
  · simp [List.length_append, hm, hn]
    ring
  · rfl

/-- Witness for C3 (amended): `m = 1`, `n = 2`; the second primitive's
indices `[0, 1, 0]` land in the combined buffer as `[1, 2, 1]`. -/
theorem C3_rebase_offset_witness :
    (accumulate ⟨[⟨none,
        [⟨4, some [((0 : ℚ), (0 : ℚ), (0 : ℚ))], some (.u16 [0, 0, 0])⟩,
         ⟨4, some [((1 : ℚ), (1 : ℚ), (1 : ℚ)), ((2 : ℚ), (2 : ℚ), (2 : ℚ))],
           some (.u16 [0, 1, 0])⟩]⟩]⟩).1.length = 3 * (1 + 2) ∧
      (accumulate ⟨[⟨none,
        [⟨4, some [((0 : ℚ), (0 : ℚ), (0 : ℚ))], some (.u16 [0, 0, 0])⟩,
         ⟨4, some [((1 : ℚ), (1 : ℚ), (1 : ℚ)), ((2 : ℚ), (2 : ℚ), (2 : ℚ))],
           some (.u16 [0, 1, 0])⟩]⟩]⟩).2.1
        = [0, 0, 0] ++ ([0, 1, 0].map fun i => i + 1) :=
  C3_rebase_offset _ _ [0, 0, 0] [1, 1, 1, 2, 2, 2] [0, 0, 0] [0, 1, 0] 1 2
    rfl rfl rfl rfl (by decide) (by decide) (by decide)

/-- C5: for a valid triangle asset (every primitive triangle-listed with
an index count divisible by 3, at least one primitive contributing
geometry, total index count within `i32` range), `load` succeeds and a
subsequent `render` issues exactly one indexed draw whose element count
equals the flattened total index count, which is a non-zero multiple
of 3. -/
theorem C5_one_draw_multiple_of_3 (parse : List Nat → Except String Asset)
    (st : ViewerState) (bytes : List Nat) (asset : Asset)
    (h4 : ¬ bytes.length < 4) (hp : parse bytes = .ok asset)
    (hvalid : ∀ m ∈ asset.meshes, ∀ p ∈ m.primitives, validTriPrimitive p)
    (hne : (accumulate asset).1 ≠ [])
    (hsize : (accumulate asset).2.1.length < 2 ^ 31) :
    ∃ st', load_gltf parse st bytes = .ok st' ∧
      st'.index_count = ((accumulate asset).2.1.length : Int) ∧
      st'.index_count ≠ 0 ∧
      (render st').2 = [st'.index_count] ∧
      (3 : Int) ∣ st'.index_count := by
  obtain ⟨hdiv, hiff⟩ := accumulate_invariant asset hvalid
  have hm : ¬ asset.meshes.length = 0 := by
    intro h
    apply hne
    unfold accumulate
    rw [List.length_eq_zero.mp h]
    rfl
  have hine : (accumulate asset).2.1 ≠ [] := fun h => hne (hiff.mpr h)
  have hcount : toI32 (accumulate asset).2.1.length
      = ((accumulate asset).2.1.length : Int) :=
    toI32_of_lt _ hsize
  have hcne : ((accumulate asset).2.1.length : Int) ≠ 0 := by
    intro h
    apply hine
    apply List.length_eq_zero.mp
    exact_mod_cast h
  refine ⟨upload_geometry (clear_geometry st) (accumulate asset).1 (accumulate asset).2.1,
    ?_, ?_, ?_, ?_, ?_⟩
  · simp [load_gltf, h4, hp, hm, hne]
  · exact hcount
  · show toI32 _ ≠ 0
    rw [hcount]
    exact hcne
  · show (render _).2 = _
    unfold render
    rw [if_neg (by show ¬ toI32 _ = 0; rw [hcount]; exact hcne)]
  · show (3 : Int) ∣ toI32 _
    rw [hcount]
    exact_mod_cast Nat.dvd_of_mod_eq_zero hdiv

/-- Witness for C5: one triangle primitive with 3 positions and no index
stream; the single draw has element count 3. -/
theorem C5_one_draw_multiple_of_3_witness :
    ∃ st', load_gltf
        (fun _ => Except.ok ⟨[⟨none, [⟨4,
          some [((0 : ℚ), (0 : ℚ), (0 : ℚ)), ((1 : ℚ), (0 : ℚ), (0 : ℚ)),
            ((0 : ℚ), (1 : ℚ), (0 : ℚ))], none⟩]⟩]⟩)
        initState [103, 108, 84, 70] = .ok st' ∧
      st'.index_count = ((accumulate ⟨[⟨none, [⟨4,
          some [((0 : ℚ), (0 : ℚ), (0 : ℚ)), ((1 : ℚ), (0 : ℚ), (0 : ℚ)),
            ((0 : ℚ), (1 : ℚ), (0 : ℚ))], none⟩]⟩]⟩).2.1.length : Int) ∧
      st'.index_count ≠ 0 ∧
      (render st').2 = [st'.index_count] ∧
      (3 : Int) ∣ st'.index_count :=
  C5_one_draw_multiple_of_3 _ initState [103, 108, 84, 70]
    ⟨[⟨none, [⟨4, some [((0 : ℚ), (0 : ℚ), (0 : ℚ)), ((1 : ℚ), (0 : ℚ), (0 : ℚ)),
      ((0 : ℚ), (1 : ℚ), (0 : ℚ))], none⟩]⟩]⟩
    (by decide) rfl
    (by
      intro m hm p hp
      rw [List.mem_singleton] at hm
      subst hm
      rw [List.mem_singleton] at hp
      subst hp
      exact ⟨rfl, rfl⟩)
    (by decide) (by decide)

/-- Witness for C7 at the spec's own example, a 2-byte input. -/
theorem C7_too_small_witness :
    ([0, 0] : List Nat).length < 4 ∧
      load_gltf (fun _ => Except.ok ⟨[]⟩) initState [0, 0]
        = Except.error "GLTF file too small" :=
  ⟨by decide, C7_too_small _ _ _ (by decide)⟩

/-- C9: with `index_count == 0`, `render` returns success immediately and
issues no draw call; and in every state (reachable or not) each draw call
`render` issues has a non-zero element count. -/
theorem C9_render_zero_guard (st : ViewerState) :
    (st.index_count = 0 → render st = (.ok (), [])) ∧
      ∀ d ∈ (render st).2, d ≠ 0 := by
  constructor
  · intro h
    simp [render, h]
  · intro d hd
    unfold render at hd
    split at hd
    · simp at hd
    · next h =>
      simp at hd
      rw [hd]
      exact h

/-- Witness for C9 at the freshly constructed viewer state. -/
theorem C9_render_zero_guard_witness : render initState = (.ok (), []) :=
  (C9_render_zero_guard initState).1 rfl

/-- `vlen` on an explicit triple. -/
theorem vlen_mk (a b c : ℝ) : vlen (a, b, c) = Real.sqrt (a ^ 2 + b ^ 2 + c ^ 2) := rfl

/-- Lengths are non-negative. -/
theorem vlen_nonneg (v : ℝ × ℝ × ℝ) : 0 ≤ vlen v := Real.sqrt_nonneg _

/-- A point at spherical coordinates `(d, θ, φ)` lies at distance `d`
from the origin, for any angles: the reconstruction step of
`rotate_camera` is a pure rotation. -/
theorem vlen_spherical (d θ φ : ℝ) (hd : 0 ≤ d) :
    vlen (d * Real.sin θ * Real.cos φ, d * Real.cos θ, d * Real.sin θ * Real.sin φ) = d := by
  rw [vlen_mk]
  have h1 := Real.sin_sq_add_cos_sq θ
  have h2 := Real.sin_sq_add_cos_sq φ
  have key : (d * Real.sin θ * Real.cos φ) ^ 2 + (d * Real.cos θ) ^ 2 +
      (d * Real.sin θ * Real.sin φ) ^ 2 = d ^ 2 := by
    linear_combination d ^ 2 * Real.sin θ ^ 2 * h2 + d ^ 2 * h1
  rw [key]
  exact Real.sqrt_sq hd

/-- The displacement of the rotated camera from the (unchanged) target is
the spherical reconstruction at the original distance. -/
theorem rotate_camera_vsub (st : CameraState) (dx dy : ℝ) :
    vsub (rotate_camera st dx dy).camera_position (rotate_camera st dx dy).camera_target
      = (vlen (vsub st.camera_position st.camera_target)
            * Real.sin (rotatedTheta st dy)
            * Real.cos (atan2 (vsub st.camera_position st.camera_target).2.2
                (vsub st.camera_position st.camera_target).1 + dx * 0.01),
         vlen (vsub st.camera_position st.camera_target)
            * Real.cos (rotatedTheta st dy),
         vlen (vsub st.camera_position st.camera_target)
            * Real.sin (rotatedTheta st dy)
            * Real.sin (atan2 (vsub st.camera_position st.camera_target).2.2
                (vsub st.camera_position st.camera_target).1 + dx * 0.01)) := by
  simp only [rotate_camera, vsub]
  refine Prod.ext ?_ (Prod.ext ?_ ?_) <;> ring

/-- `rotate_camera` preserves the camera-to-target distance exactly. -/
theorem rotate_camera_preserves_vlen (st : CameraState) (dx dy : ℝ) :
    vlen (vsub (rotate_camera st dx dy).camera_position
        (rotate_camera st dx dy).camera_target)
      = vlen (vsub st.camera_position st.camera_target) := by
  rw [rotate_camera_vsub]
  exact vlen_spherical _ _ _ (vlen_nonneg _)

/-- The clamped polar angle stays in `[0.1, π - 0.1]`. -/
theorem rotatedTheta_bounds (st : CameraState) (dy : ℝ) :
    0.1 ≤ rotatedTheta st dy ∧ rotatedTheta st dy ≤ Real.pi - 0.1 := by
  unfold rotatedTheta
  constructor
  · apply le_min
    · exact le_max_right _ _
    · have := Real.pi_gt_three
      norm_num
      linarith
  · exact min_le_right _ _

/-- C8: `rotate_camera` leaves the camera target unchanged, preserves the
distance to the target exactly (pure rotation, never a zoom), and clamps
the polar angle to `[0.1, π − 0.1]` (so strictly inside `(ε, π−ε)` for
any `ε < 0.1`); repeated `orbit(dx, 0)` calls preserve the distance
exactly. `f32` arithmetic is idealised as exact real arithmetic. -/
theorem C8_orbit_invariants (st : CameraState) (dx dy : ℝ) :
    (rotate_camera st dx dy).camera_target = st.camera_target ∧
      vlen (vsub (rotate_camera st dx dy).camera_position
          (rotate_camera st dx dy).camera_target)
        = vlen (vsub st.camera_position st.camera_target) ∧
      0.1 ≤ rotatedTheta st dy ∧ rotatedTheta st dy ≤ Real.pi - 0.1 ∧
      ∀ k : ℕ,
        vlen (vsub ((fun s => rotate_camera s dx 0)^[k] st).camera_position
            ((fun s => rotate_camera s dx 0)^[k] st).camera_target)
          = vlen (vsub st.camera_position st.camera_target) := by
  refine ⟨rfl, rotate_camera_preserves_vlen st dx dy,
    (rotatedTheta_bounds st dy).1, (rotatedTheta_bounds st dy).2, ?_⟩
  intro k
  induction k with
  | zero => rfl
  | succ k ih =>
    rw [Function.iterate_succ_apply']
    rw [rotate_camera_preserves_vlen _ dx 0]
    exact ih

end GltfViewer

namespace Calc

/-- C10: evaluating an expression and evaluating the same expression with
every space (U+0020) removed produce identical outcomes (same value or
same error): `evaluate_expression` strips all spaces as its first step
and all of its recursive slicing happens on the stripped string. -/
theorem C10_space_insensitive (s : List Char) :
    evalExpr s = evalExpr (stripSpaces s) := by
  conv_lhs => rw [evalExpr.eq_def]
  conv_rhs => rw [evalExpr.eq_def]
  rw [stripSpaces_idem]

end Calc
